import Mathlib

/-!
Shallow embedding of the codecrafters HTTP server (Rust) for specification
checking.  The source files are `src/main.rs`, `src/request.rs` and
`src/response.rs`.  Byte buffers are modelled as `List Nat` (each element a
byte value), Rust `String`/`&str` as Lean `String`, `HashMap<String,String>`
as an association list with last-write-wins insertion, and the filesystem as
a pair of oracles for `std::fs::metadata` and `std::fs::read`.  Fallible Rust
code (`Result`) is modelled with `Except String`; a Rust panic (`unwrap` on a
failed read) is modelled as `Option.none`.
-/

set_option maxRecDepth 20000

/-! ## Byte-level and string helpers mirroring Rust std semantics -/

/-- UTF-8 encoding of a single character as byte values
(`char::encode_utf8` / what `String::into_bytes` produces per char). -/
def utf8EncodeCharNat (c : Char) : List Nat :=
  let v := c.toNat
  if v ≤ 0x7f then [v]
  else if v ≤ 0x7ff then [v / 64 + 0xc0, v % 64 + 0x80]
  else if v ≤ 0xffff then [v / 4096 + 0xe0, v / 64 % 64 + 0x80, v % 64 + 0x80]
  else [v / 262144 + 0xf0, v / 4096 % 64 + 0x80, v / 64 % 64 + 0x80, v % 64 + 0x80]

/-- The UTF-8 bytes of a string (`str::as_bytes` / `String::into_bytes`). -/
def strBytes (s : String) : List Nat :=
  s.data.flatMap utf8EncodeCharNat

/-- `lo ≤ b ≤ hi`, as a Boolean byte-range test. -/
def byteIn (lo hi b : Nat) : Bool :=
  decide (lo ≤ b ∧ b ≤ hi)

/-- Decode one UTF-8 scalar value from a first byte `b0` and the remaining
bytes, returning the character and the bytes left over
(one iteration of Rust's `std::str::from_utf8` validator): rejects
truncated sequences, stray continuation bytes, overlong encodings,
surrogates, and values above U+10FFFF, exactly as Rust does. -/
def utf8DecodeOne (b0 : Nat) (rest : List Nat) : Option (Char × List Nat) :=
  if b0 < 0x80 then some (Char.ofNat b0, rest)
  else if byteIn 0xc2 0xdf b0 then
    match rest with
    | b1 :: rest1 =>
      if byteIn 0x80 0xbf b1 then
        some (Char.ofNat ((b0 - 0xc0) * 64 + (b1 - 0x80)), rest1)
      else none
    | [] => none
  else if byteIn 0xe0 0xef b0 then
    match rest with
    | b1 :: b2 :: rest2 =>
      let k1 : Bool :=
        if b0 = 0xe0 then byteIn 0xa0 0xbf b1
        else if b0 = 0xed then byteIn 0x80 0x9f b1
        else byteIn 0x80 0xbf b1
      if k1 && byteIn 0x80 0xbf b2 then
        some (Char.ofNat ((b0 - 0xe0) * 4096 + (b1 - 0x80) * 64 + (b2 - 0x80)), rest2)
      else none
    | _ => none
  else if byteIn 0xf0 0xf4 b0 then
    match rest with
    | b1 :: b2 :: b3 :: rest3 =>
      let k1 : Bool :=
        if b0 = 0xf0 then byteIn 0x90 0xbf b1
        else if b0 = 0xf4 then byteIn 0x80 0x8f b1
        else byteIn 0x80 0xbf b1
      if k1 && byteIn 0x80 0xbf b2 && byteIn 0x80 0xbf b3 then
        some
          (Char.ofNat ((b0 - 0xf0) * 262144 + (b1 - 0x80) * 4096 + (b2 - 0x80) * 64 + (b3 - 0x80)),
           rest3)
      else none
    | _ => none
  else none

/-- Iterate `utf8DecodeOne` over the whole byte sequence.  The fuel
argument makes the recursion structural; each step consumes at least one
byte, so fuel equal to the input length never runs out. -/
def utf8DecodeAux : Nat → List Nat → Option (List Char)
  | _, [] => some []
  | 0, _ :: _ => none
  | fuel + 1, b0 :: rest =>
    match utf8DecodeOne b0 rest with
    | none => none
    | some (c, rest2) => (utf8DecodeAux fuel rest2).map (fun cs => c :: cs)

/-- UTF-8 decoding of a byte sequence (`std::str::from_utf8`). -/
def utf8DecodeList (l : List Nat) : Option (List Char) :=
  utf8DecodeAux l.length l

/-- `std::str::from_utf8` on a byte slice, as an optional string. -/
def strFromBytes (bs : List Nat) : Option String :=
  (utf8DecodeList bs).map String.mk

/-- Split a byte list at every occurrence of byte `b`
(used to model line splitting of `BufRead::lines` on a byte buffer). -/
def splitByte (b : Nat) : List Nat → List (List Nat)
  | [] => [[]]
  | x :: xs =>
    let r := splitByte b xs
    if x = b then [] :: r else (x :: r.headD []) :: r.tail

/-- Split a character list at every occurrence of `c`
(Rust `str::split(char)` semantics: keeps empty segments). -/
def splitChar (c : Char) : List Char → List (List Char)
  | [] => [[]]
  | x :: xs =>
    let r := splitChar c xs
    if x = c then [] :: r else (x :: r.headD []) :: r.tail

/-- Split a character list at every run boundary given by predicate `p`
(building block for `str::split_whitespace`; keeps empty segments). -/
def splitPred (p : Char → Bool) : List Char → List (List Char)
  | [] => [[]]
  | x :: xs =>
    let r := splitPred p xs
    if p x then [] :: r else (x :: r.headD []) :: r.tail

/-- Rust `str::split_whitespace`: split on whitespace and drop empty tokens.
(The model uses ASCII whitespace — space, tab, CR, LF — which agrees with
Rust's Unicode definition on every ASCII input.) -/
def rustSplitWhitespace (s : String) : List String :=
  ((splitPred (fun c => c.isWhitespace) s.data).filter (fun t => t ≠ [])).map String.mk

/-- Drop a single trailing carriage return. -/
def stripTrailingCR (l : List Char) : List Char :=
  if l.getLast? = some (Char.ofNat 13) then l.dropLast else l

/-- Rust `str::lines`: split on `\n`; a line that was terminated by `\n`
loses one trailing `\r`; a final line ending the string without `\n` is kept
verbatim; a trailing line terminator produces no extra empty line. -/
def rustLines (s : String) : List String :=
  let parts := splitChar (Char.ofNat 10) s.data
  let init := parts.dropLast.map stripTrailingCR
  let last := match parts.getLast? with
    | some [] => []
    | some p => [p]
    | none => []
  (init ++ last).map String.mk

/-- Rust `std::io::BufRead::lines` over a byte buffer: split the bytes on
`\n` (10); each `\n`-terminated line additionally loses one trailing `\r`
(13); a final unterminated chunk is kept verbatim; each line must decode as
UTF-8 or the iterator yields an error (modelled as `none`). -/
def ioLines (bytes : List Nat) : Option (List String) :=
  let parts := splitByte 10 bytes
  let init := parts.dropLast.map (fun p => if p.getLast? = some 13 then p.dropLast else p)
  let last := match parts.getLast? with
    | some [] => []
    | some p => [p]
    | none => []
  (init ++ last).mapM strFromBytes

/-- Position of the first occurrence of the 4-byte sequence `\r\n\r\n`
(`bytes.windows(4).position(|w| w == b"\r\n\r\n")` in `request.rs`). -/
def findSep : List Nat → Option Nat
  | [] => none
  | x :: xs =>
    if (x :: xs).take 4 = [13, 10, 13, 10] then some 0
    else (findSep xs).map (fun n => n + 1)

/-- `HashMap::insert` on an association list: replace the value of an
existing key in place, otherwise append (last write wins). -/
def insertHdr : List (String × String) → String → String → List (String × String)
  | [], k, v => [(k, v)]
  | (k1, v1) :: rest, k, v =>
    if k1 = k then (k, v) :: rest else (k1, v1) :: insertHdr rest k v

/-- `HashMap::get` on an association list. -/
def lookupHdr : List (String × String) → String → Option String
  | [], _ => none
  | (k1, v1) :: rest, k => if k1 = k then some v1 else lookupHdr rest k

/-- Digits of a decimal numeral folded into a number. -/
def digitsToNat (l : List Char) : Nat :=
  l.foldl (fun a c => a * 10 + (c.toNat - 48)) 0

/-- Rust `str::parse::<usize>()`: an optional leading `+`, then one or more
ASCII digits, value within `usize` (64-bit) range; anything else fails. -/
def rustParseUsize (s : String) : Option Nat :=
  let ds := match s.data with
    | c :: rest => if c = Char.ofNat 43 then rest else c :: rest
    | [] => []
  if ds ≠ [] ∧ ds.all (fun c => c.isDigit) then
    if digitsToNat ds < 2 ^ 64 then some (digitsToNat ds) else none
  else none

/-! ## Data model (`request.rs`, `response.rs`, `main.rs`) -/

/-- `HttpRequest { method, path, headers, body }`. -/
structure HttpRequest where
  method : String
  path : String
  headers : List (String × String)
  body : List Nat
deriving DecidableEq

/-- `HttpResponse { status_code, headers, body }`. -/
structure HttpResponse where
  status_code : Nat
  headers : List (String × String)
  body : List Nat
deriving DecidableEq

namespace HttpResponse

/-- `HttpResponse::new(status_code)`. -/
def new (status_code : Nat) : HttpResponse :=
  ⟨status_code, [], []⟩

/-- `HttpResponse::not_found()`. -/
def not_found : HttpResponse := new 404

/-- `HttpResponse::ok()`. -/
def ok : HttpResponse := new 200

/-- `HttpResponse::created()` (present in `response.rs` but never called). -/
def created : HttpResponse := new 201

/-- `HttpResponse::internal_server_error()`. -/
def internal_server_error : HttpResponse := new 500

/-- `HttpResponse::set_header`. -/
def set_header (r : HttpResponse) (header value : String) : HttpResponse :=
  ⟨r.status_code, insertHdr r.headers header value, r.body⟩

/-- `HttpResponse::set_body`. -/
def set_body (r : HttpResponse) (body : List Nat) : HttpResponse :=
  ⟨r.status_code, r.headers, body⟩

/-- `HttpResponse::reason`. -/
def reason (r : HttpResponse) : String :=
  match r.status_code with
  | 200 => "OK"
  | 201 => "Created"
  | 404 => "Not Found"
  | 500 => "Internal Server Error"
  | _ => "Unknown"

/-- `HttpResponse::encode`: status line, then each stored header as
`name: value\r\n`, a blank line, then the raw body bytes. -/
def encode (r : HttpResponse) : List Nat :=
  strBytes ("HTTP/1.1 " ++ toString r.status_code ++ " " ++ r.reason ++ "\r\n")
    ++ r.headers.flatMap (fun hv => strBytes (hv.1 ++ ": " ++ hv.2 ++ "\r\n"))
    ++ strBytes "\r\n"
    ++ r.body

end HttpResponse

/-- `ServerConfig { static_directory }`. -/
structure ServerConfig where
  static_directory : Option String

/-- Result of `std::fs::metadata`: whether the path is a regular file and
its length (`metadata.is_file()` / `metadata.len()`). -/
structure FileMetadata where
  is_file : Bool
  len : Nat
deriving DecidableEq

/-- The filesystem collaborator, as two oracles: `stat` for
`std::fs::metadata` and `read` for `std::fs::read` (either may fail). -/
structure Fs where
  stat : String → Option FileMetadata
  read : String → Option (List Nat)

/-! ## Header-line parsing shared by both request parsers -/

/-- Rust `str::split(": ")` on the characters of a header line: split at
each leftmost, non-overlapping occurrence of the two-character separator
`": "`, keeping empty segments. -/
def splitColonSpace : List Char → List (List Char)
  | [] => [[]]
  | [x] => [[x]]
  | x :: y :: rest =>
    if x = Char.ofNat 58 ∧ y = Char.ofNat 32 then [] :: splitColonSpace rest
    else
      let r := splitColonSpace (y :: rest)
      (x :: r.headD []) :: r.tail

/-- Whether the two-character separator `": "` occurs in a character list. -/
def containsColonSpace : List Char → Bool
  | [] => false
  | [_] => false
  | x :: y :: rest =>
    if x = Char.ofNat 58 ∧ y = Char.ofNat 32 then true
    else containsColonSpace (y :: rest)

/-- One loop iteration of header parsing: `header.split(": ").collect()`
must have exactly 2 parts, else
`bail!("invalid header: expected 2 parts, got {}")`. -/
def parseHeaderLine (line : String) : Except String (String × String) :=
  let parts := (splitColonSpace line.data).map String.mk
  match parts with
  | [k, v] => .ok (k, v)
  | _ => .error ("invalid header: expected 2 parts, got " ++ toString parts.length)

/-- The header-parsing loop: parse each line in order, inserting into the
header map; the first malformed line aborts with its error. -/
def parseHeaders : List String → List (String × String) → Except String (List (String × String))
  | [], acc => .ok acc
  | line :: rest, acc =>
    match parseHeaderLine line with
    | .error e => .error e
    | .ok (k, v) => parseHeaders rest (insertHdr acc k v)

/-! ## `request.rs`: `HttpRequest::from_bytes` (byte-oriented parser) -/

namespace RequestRs

/-- The `Content-Length` computation of `request.rs`:
`headers.get("Content-Length").and_then(|v| v.parse().ok()).unwrap_or(0)`. -/
def contentLengthOf (headers : List (String × String)) : Nat :=
  ((lookupHdr headers "Content-Length").bind rustParseUsize).getD 0

/-- `HttpRequest::from_bytes` from `request.rs`: find the first
`\r\n\r\n`; the bytes before it are the header block (must be UTF-8), the
bytes after it are candidate body bytes; parse the request line (exactly 3
whitespace-separated tokens) and then headers up to the first empty line;
the body is the first `min(Content-Length or 0, available)` candidate
bytes. -/
def from_bytes (bytes : List Nat) : Except String HttpRequest :=
  match findSep bytes with
  | none => .error "Unable to find header/body seperator"
  | some header_end =>
    let header_data := bytes.take header_end
    let body_data := bytes.drop (header_end + 4)
    match strFromBytes header_data with
    | none => .error "unable to parse header"
    | some header_str =>
      match rustLines header_str with
      | [] => .error "No request line"
      | request_line :: restLines =>
        let request_line_parts := rustSplitWhitespace request_line
        if request_line_parts.length = 3 then
          match parseHeaders (restLines.takeWhile (fun h => h ≠ "")) [] with
          | .error e => .error e
          | .ok request_headers =>
            let content_length := contentLengthOf request_headers
            let body := body_data.take (min content_length body_data.length)
            .ok ⟨request_line_parts.headD "", request_line_parts.getD 1 "",
                 request_headers, body⟩
        else
          .error ("invalid request line: expected 3 parts, got "
            ++ toString request_line_parts.length)

end RequestRs

/-! ## `main.rs`: its own `HttpRequest::from_bytes` (line-oriented parser),
`handle_request` and `handle_connection` -/

namespace MainRs

/-- `HttpRequest::from_bytes` from `main.rs`: decode the whole buffer into
lines with `BufRead::lines` (failing on invalid UTF-8), parse the request
line (exactly 3 whitespace-separated tokens), require an empty line to
exist, parse the lines strictly between the request line and the first
empty line as headers, and leave the body empty (`body: vec![]`). -/
def from_bytes (bytes : List Nat) : Except String HttpRequest :=
  match ioLines bytes with
  | none => .error "Invalid request"
  | some lines =>
    match lines.head? with
    | none => .error "No request line"
    | some request_line =>
      let request_line_parts := rustSplitWhitespace request_line
      if request_line_parts.length = 3 then
        match lines.findIdx? (fun x => x == "") with
        | none => .error "No request body found"
        | some pos =>
          match parseHeaders ((lines.drop 1).take (pos - 1)) [] with
          | .error e => .error e
          | .ok request_headers =>
            .ok ⟨request_line_parts.headD "", request_line_parts.getD 1 "",
                 request_headers, []⟩
      else
        .error ("invalid request line: expected 3 parts, got "
          ++ toString request_line_parts.length)

/-- The path split of `handle_request`:
`request.path.split("/").filter(|segment| !segment.is_empty())`. -/
def segmentsOf (path : String) : List String :=
  ((splitChar (Char.ofNat 47) path.data).map String.mk).filter (fun s => s ≠ "")

/-- `handle_request(request, &config)` from `main.rs`, with the filesystem
passed explicitly.  The Rust function returns
`Result<HttpResponse>` but every arm returns `Ok(..)`; the one panic
(`std::fs::read(file_path).unwrap()` after a successful `metadata` call)
is modelled as the outer `Option.none`. -/
def handle_request (request : HttpRequest) (config : ServerConfig) (fs : Fs) :
    Option (Except String HttpResponse) :=
  let segments := segmentsOf request.path
  match segments.head? with
  | some first_segment =>
    if first_segment = "files" then
      let file_seg := segments.getD 1 ""
      match config.static_directory with
      | none => some (.ok HttpResponse.not_found)
      | some root_dir =>
        let file_path := root_dir ++ "/" ++ file_seg
        match fs.stat file_path with
        | some metadata =>
          if metadata.is_file then
            match fs.read file_path with
            | some contents =>
              some (.ok (((HttpResponse.ok.set_header "Content-Type"
                  "application/octet-stream").set_header
                  "Content-Length" (toString metadata.len)).set_body contents))
            | none => none
          else some (.ok HttpResponse.not_found)
        | none => some (.ok HttpResponse.not_found)
    else if first_segment = "echo" then
      let message := segments.getD 1 ""
      some (.ok (((HttpResponse.ok.set_header "Content-Type"
          "text/plain").set_header
          "Content-Length" (toString (strBytes message).length)).set_body
          (strBytes message)))
    else if first_segment = "user-agent" then
      match lookupHdr request.headers "User-Agent" with
      | some user_agent =>
        some (.ok (((HttpResponse.ok.set_header "Content-Type"
            "text/plain").set_header
            "Content-Length" (toString (strBytes user_agent).length)).set_body
            (strBytes user_agent)))
      | none => some (.ok HttpResponse.internal_server_error)
    else some (.ok HttpResponse.not_found)
  | none => some (.ok HttpResponse.ok)

/-- Observable outcome of one `handle_connection` task: the encoded bytes
written to the socket, an error returned to the spawner (logged), or a
panic (the `unwrap` in the files route). -/
inductive ConnOutcome where
  | wrote (out : List Nat)
  | failed (e : String)
  | panicked
deriving DecidableEq

/-- `handle_connection(stream, config)` from `main.rs`: allocate a buffer of
1024 zero bytes, perform a single `read_buf` (which appends the received
bytes after the zeros), decode with `HttpRequest::from_bytes`, call
`handle_request`, convert an `Err` to a 500 response, encode, and perform a
single write.  The socket is modelled as the list of chunks successive
reads would deliver; the source reads only once, so only the head is
consumed. -/
def handle_connection (reads : List (List Nat)) (config : ServerConfig) (fs : Fs) :
    ConnOutcome :=
  let input := List.replicate 1024 0 ++ reads.headD []
  match from_bytes input with
  | .error e => .failed e
  | .ok request =>
    match handle_request request config fs with
    | none => .panicked
    | some response =>
      let result := match response with
        | .ok resp => resp
        | .error _ => HttpResponse.internal_server_error
      .wrote result.encode

end MainRs

/-! ## Decidable equality for `Except` (used to evaluate parser results) -/

instance {ε α : Type} [DecidableEq ε] [DecidableEq α] : DecidableEq (Except ε α) :=
  fun a b =>
    match a, b with
    | .ok x, .ok y =>
      if h : x = y then isTrue (by rw [h]) else
        isFalse (fun hh => by cases hh; exact h rfl)
    | .error x, .error y =>
      if h : x = y then isTrue (by rw [h]) else
        isFalse (fun hh => by cases hh; exact h rfl)
    | .ok _, .error _ => isFalse (fun hh => Except.noConfusion hh)
    | .error _, .ok _ => isFalse (fun hh => Except.noConfusion hh)

/-! ## Concrete inputs used by counterexamples and witnesses -/

/-- Wire bytes of a request whose `Accept-Encoding` header contains `gzip`
and which carries no `Connection` header. -/
def gzipReqBytes : List Nat :=
  strBytes "GET /echo/abc HTTP/1.1\r\nAccept-Encoding: gzip\r\n\r\n"

/-- Configuration without a static directory. -/
def cfg0 : ServerConfig := ⟨none⟩

/-- Configuration with static directory `/data`. -/
def cfgD : ServerConfig := ⟨some "/data"⟩

/-- An empty filesystem: every stat and every read fails. -/
def fs0 : Fs := ⟨fun _ => none, fun _ => none⟩

/-- A filesystem where `/data/report.txt` stats as a 3-byte regular file
but every read fails (models a read error after a successful stat). -/
def fsStatOnly : Fs :=
  ⟨fun p => if p = "/data/report.txt" then some ⟨true, 3⟩ else none,
   fun _ => none⟩

/-- A consistent filesystem: `/data/report.txt` is a 5-byte regular file
with contents `hello`. -/
def fsGood : Fs :=
  ⟨fun p => if p = "/data/report.txt" then some ⟨true, 5⟩ else none,
   fun p => if p = "/data/report.txt" then some (strBytes "hello") else none⟩

/-- The first line the server sees for `gzipReqBytes`: the 1024 zero bytes
of the read buffer decode to NUL characters glued onto the request line. -/
def bigLine : String :=
  String.mk (List.replicate 1024 (Char.ofNat 0) ++ "GET /echo/abc HTTP/1.1".data)

/-- The decoded method: 1024 NUL characters followed by `GET`. -/
def nulMethod : String :=
  String.mk (List.replicate 1024 (Char.ofNat 0) ++ "GET".data)

/-- The request `main.rs` decodes from `gzipReqBytes` (zero-filled buffer
prefix included). -/
def c1Req : HttpRequest := ⟨nulMethod, "/echo/abc", [("Accept-Encoding", "gzip")], []⟩

/-- The response the router produces for `GET /echo/abc`. -/
def c1Resp : HttpResponse :=
  ⟨200, [("Content-Type", "text/plain"), ("Content-Length", "3")], strBytes "abc"⟩

/-- A decoded `POST /files/report.txt` request with a non-empty body. -/
def c2Req : HttpRequest := ⟨"POST", "/files/report.txt", [], strBytes "hello"⟩

/-- A decoded `GET /files/report.txt` request. -/
def filesReq : HttpRequest := ⟨"GET", "/files/report.txt", [], []⟩

/-- The 200 response serving `/data/report.txt` from `fsGood`. -/
def c5Resp : HttpResponse :=
  ⟨200, [("Content-Type", "application/octet-stream"), ("Content-Length", "5")],
   strBytes "hello"⟩

/-- Bytes with no `\r\n\r\n` separator. -/
def c6NoSep : List Nat := strBytes "GET / HTTP/1.1"

/-- A full request whose body candidate bytes exceed its `Content-Length`. -/
def c6Bytes : List Nat := strBytes "GET / HTTP/1.1\r\nContent-Length: 5\r\n\r\nhelloEXTRA"

/-- The request `request.rs` decodes from `c6Bytes`. -/
def c6Req : HttpRequest := ⟨"GET", "/", [("Content-Length", "5")], strBytes "hello"⟩

/-- A request whose only header line contains two `": "` separators. -/
def c7Bytes : List Nat := strBytes "GET / HTTP/1.1\r\nX: a: b\r\n\r\n"

/-- A decoded `GET /user-agent` request carrying a `User-Agent` header. -/
def uaReq : HttpRequest := ⟨"GET", "/user-agent", [("User-Agent", "test-agent")], []⟩

/-- A decoded `GET /user-agent` request without a `User-Agent` header. -/
def uaReqAbsent : HttpRequest := ⟨"GET", "/user-agent", [("Host", "x")], []⟩

/-- The 200 response for `uaReq`. -/
def uaResp : HttpResponse :=
  ⟨200, [("Content-Type", "text/plain"), ("Content-Length", "10")], strBytes "test-agent"⟩

/-! ## General lemmas about the helper functions -/

theorem cons_headD_tail {α : Type} {l : List α} (d : α) (h : l ≠ []) :
    l.headD d :: l.tail = l := by
  cases l with
  | nil => exact absurd rfl h
  | cons a as => rfl

theorem splitByte_ne_nil (b : Nat) (l : List Nat) : splitByte b l ≠ [] := by
  cases l with
  | nil => simp [splitByte]
  | cons x xs =>
    simp only [splitByte]
    split <;> simp

theorem splitPred_ne_nil (p : Char → Bool) (l : List Char) : splitPred p l ≠ [] := by
  cases l with
  | nil => simp [splitPred]
  | cons x xs =>
    simp only [splitPred]
    split <;> simp

theorem splitByte_replicate_absorb (b c : Nat) (hcb : c ≠ b) (n : Nat) (l : List Nat) :
    splitByte b (List.replicate n c ++ l) =
      (List.replicate n c ++ (splitByte b l).headD []) :: (splitByte b l).tail := by
  induction n with
  | zero =>
    simp only [List.replicate, List.nil_append]
    exact (cons_headD_tail [] (splitByte_ne_nil b l)).symm
  | succ m ih =>
    simp only [List.replicate, List.cons_append, splitByte, List.append_eq, ih, if_neg hcb,
      List.headD_cons, List.tail_cons]

theorem splitPred_replicate_absorb (p : Char → Bool) (c : Char) (hc : p c = false)
    (n : Nat) (l : List Char) :
    splitPred p (List.replicate n c ++ l) =
      (List.replicate n c ++ (splitPred p l).headD []) :: (splitPred p l).tail := by
  induction n with
  | zero =>
    simp only [List.replicate, List.nil_append]
    exact (cons_headD_tail [] (splitPred_ne_nil p l)).symm
  | succ m ih =>
    simp only [List.replicate, List.cons_append, splitPred, List.append_eq, ih, hc,
      List.headD_cons, List.tail_cons, Bool.false_eq_true, if_false]

theorem utf8DecodeAux_zero_absorb (n fuel : Nat) (l : List Nat) :
    utf8DecodeAux (n + fuel) (List.replicate n 0 ++ l) =
      (utf8DecodeAux fuel l).map (fun cs => List.replicate n (Char.ofNat 0) ++ cs) := by
  induction n with
  | zero =>
    simp [List.replicate]
  | succ m ih =>
    rw [List.replicate_succ, List.cons_append, Nat.succ_add, utf8DecodeAux]
    have hone : utf8DecodeOne 0 (List.replicate m 0 ++ l) =
        some (Char.ofNat 0, List.replicate m 0 ++ l) := by
      rw [utf8DecodeOne.eq_def]
      norm_num
    rw [hone]
    dsimp only
    rw [ih, Option.map_map]
    rfl

theorem utf8DecodeList_zero_absorb (n : Nat) (l : List Nat) :
    utf8DecodeList (List.replicate n 0 ++ l) =
      (utf8DecodeList l).map (fun cs => List.replicate n (Char.ofNat 0) ++ cs) := by
  rw [utf8DecodeList, List.length_append, List.length_replicate, utf8DecodeAux_zero_absorb,
    utf8DecodeList]

theorem strFromBytes_zero_absorb (n : Nat) (l : List Nat) :
    strFromBytes (List.replicate n 0 ++ l) =
      (strFromBytes l).map (fun s => String.mk (List.replicate n (Char.ofNat 0) ++ s.data)) := by
  rw [strFromBytes, utf8DecodeList_zero_absorb, Option.map_map, strFromBytes,
    Option.map_map]
  rfl

theorem take_min {α : Type} (l : List α) (n : Nat) : l.take (min n l.length) = l.take n := by
  rcases Nat.le_total n l.length with h | h
  · rw [Nat.min_eq_left h]
  · rw [Nat.min_eq_right h, List.take_of_length_le h, List.take_of_length_le (Nat.le_refl _)]

theorem splitColonSpace_no_sep (l : List Char) (h : containsColonSpace l = false) :
    splitColonSpace l = [l] := by
  induction l using splitColonSpace.induct with
  | case1 => rfl
  | case2 x => rfl
  | case3 x y rest hxy ih =>
    rw [containsColonSpace] at h
    rw [if_pos hxy] at h
    exact absurd h (by simp)
  | case4 x y rest hxy ih =>
    rw [containsColonSpace, if_neg hxy] at h
    rw [splitColonSpace, if_neg hxy, ih h]
    rfl

theorem splitColonSpace_append (k v : List Char) (hk : containsColonSpace k = false) :
    splitColonSpace (k ++ Char.ofNat 58 :: Char.ofNat 32 :: v) =
      k :: splitColonSpace v := by
  induction k using containsColonSpace.induct with
  | case1 =>
    rw [List.nil_append, splitColonSpace, if_pos ⟨rfl, rfl⟩]
  | case2 x =>
    rw [List.cons_append, List.nil_append, splitColonSpace,
      if_neg (fun h => absurd h.2 (by decide)), splitColonSpace, if_pos ⟨rfl, rfl⟩]
    rfl
  | case3 x y rest hxy =>
    rw [containsColonSpace, if_pos hxy] at hk
    exact absurd hk (by simp)
  | case4 x y rest hxy ih =>
    rw [containsColonSpace, if_neg hxy] at hk
    rw [List.cons_append, List.cons_append, splitColonSpace, if_neg hxy]
    rw [List.cons_append] at ih
    rw [ih hk]
    rfl

theorem string_mk_data (s : String) : String.mk s.data = s := rfl

/-- `encode` is the head section followed by the raw body bytes. -/
theorem encode_eq_append (r : HttpResponse) :
    r.encode =
      (strBytes ("HTTP/1.1 " ++ toString r.status_code ++ " " ++ r.reason ++ "\r\n")
        ++ r.headers.flatMap (fun hv => strBytes (hv.1 ++ ": " ++ hv.2 ++ "\r\n"))
        ++ strBytes "\r\n") ++ r.body := rfl

theorem encode_drop_body (r : HttpResponse) :
    r.encode.drop (r.encode.length - r.body.length) = r.body := by
  rw [encode_eq_append, List.length_append, Nat.add_sub_cancel]
  exact List.drop_left _ _


/-! ## Helper lemmas about `handle_request` -/

/-- `handle_request` inspects only `request.path` and `request.headers`:
the method and body fields never occur in its body. -/
theorem handle_request_path_headers (m1 m2 p : String) (h : List (String × String))
    (b1 b2 : List Nat) (cfg : ServerConfig) (fs : Fs) :
    MainRs.handle_request ⟨m1, p, h, b1⟩ cfg fs =
      MainRs.handle_request ⟨m2, p, h, b2⟩ cfg fs := rfl

/-- Inversion: every `Ok` result of `handle_request` is the bare 200, the
bare 404, the bare 500, a `text/plain` response built from some string, or
an `application/octet-stream` response built from a successful stat and
read of some path. -/
theorem handle_request_inv (req : HttpRequest) (cfg : ServerConfig) (fs : Fs)
    (resp : HttpResponse)
    (hresp : MainRs.handle_request req cfg fs = some (.ok resp)) :
    resp = HttpResponse.ok ∨ resp = HttpResponse.not_found ∨
      resp = HttpResponse.internal_server_error ∨
      (∃ msg, resp = ((HttpResponse.ok.set_header "Content-Type" "text/plain").set_header
        "Content-Length" (toString (strBytes msg).length)).set_body (strBytes msg)) ∨
      (∃ p m c, fs.stat p = some m ∧ fs.read p = some c ∧
        resp = ((HttpResponse.ok.set_header "Content-Type"
          "application/octet-stream").set_header "Content-Length"
          (toString m.len)).set_body c) := by
  simp only [MainRs.handle_request] at hresp
  repeat' split at hresp
  all_goals try exact Option.noConfusion hresp
  all_goals simp only [Option.some.injEq, Except.ok.injEq] at hresp
  all_goals subst hresp
  all_goals try exact Or.inl rfl
  all_goals try exact Or.inr (Or.inl rfl)
  all_goals try exact Or.inr (Or.inr (Or.inl rfl))
  all_goals try exact Or.inr (Or.inr (Or.inr (Or.inl ⟨_, rfl⟩)))
  rename_i hstat hfile x c hread
  exact Or.inr (Or.inr (Or.inr (Or.inr ⟨_, _, _, hstat, hread, rfl⟩)))

/-- No response built by `handle_request` carries a `Content-Encoding`
header. -/
theorem handle_request_no_content_encoding (req : HttpRequest) (cfg : ServerConfig)
    (fs : Fs) (resp : HttpResponse)
    (hresp : MainRs.handle_request req cfg fs = some (.ok resp)) :
    lookupHdr resp.headers "Content-Encoding" = none := by
  rcases handle_request_inv req cfg fs resp hresp with
    h1 | h1 | h1 | ⟨msg, h1⟩ | ⟨p, m, c, hs, hr, h1⟩ <;> subst h1 <;>
    simp [HttpResponse.ok, HttpResponse.not_found, HttpResponse.internal_server_error,
      HttpResponse.new, HttpResponse.set_header, HttpResponse.set_body, insertHdr, lookupHdr]

/-- No response built by `handle_request` has status 201. -/
theorem handle_request_status_ne_201 (req : HttpRequest) (cfg : ServerConfig)
    (fs : Fs) (resp : HttpResponse)
    (hresp : MainRs.handle_request req cfg fs = some (.ok resp)) :
    resp.status_code ≠ 201 := by
  rcases handle_request_inv req cfg fs resp hresp with
    h1 | h1 | h1 | ⟨msg, h1⟩ | ⟨p, m, c, hs, hr, h1⟩ <;> subst h1 <;>
    simp [HttpResponse.ok, HttpResponse.not_found, HttpResponse.internal_server_error,
      HttpResponse.new, HttpResponse.set_header, HttpResponse.set_body]

/-! ## Concrete evaluation of the connection pipeline
(the 1024-byte zero-filled buffer prefix makes direct kernel evaluation
infeasible, so the zero prefix is peeled off with the lemmas above) -/

theorem ioLines_zeros_gzip :
    ioLines (List.replicate 1024 0 ++ gzipReqBytes) =
      some [bigLine, "Accept-Encoding: gzip", ""] := by
  have hsplit : splitByte 10 gzipReqBytes =
      [strBytes "GET /echo/abc HTTP/1.1\r", strBytes "Accept-Encoding: gzip\r", [13], []] := by
    decide
  have hne : strBytes "GET /echo/abc HTTP/1.1\r" ≠ [] := by decide
  rw [ioLines, splitByte_replicate_absorb 10 0 (by decide), hsplit]
  dsimp only [List.headD_cons, List.tail_cons, List.dropLast_cons₂, List.dropLast_single,
    List.map_cons, List.map_nil]
  rw [List.getLast?_append]
  have hlast : (strBytes "GET /echo/abc HTTP/1.1\r").getLast?.or
      (List.replicate 1024 0).getLast? = some 13 := by decide
  rw [hlast, if_pos rfl, List.dropLast_append_of_ne_nil _ hne]
  have h2 : (strBytes "GET /echo/abc HTTP/1.1\r").dropLast = strBytes "GET /echo/abc HTTP/1.1" := by
    decide
  have h3 : (if (strBytes "Accept-Encoding: gzip\r").getLast? = some 13 then
      (strBytes "Accept-Encoding: gzip\r").dropLast else strBytes "Accept-Encoding: gzip\r") =
      strBytes "Accept-Encoding: gzip" := by decide
  have h4 : (if ([13] : List Nat).getLast? = some 13 then ([] : List Nat) else [13]) = [] := by
    decide
  have hg : [List.replicate 1024 0 ++ strBytes "GET /echo/abc HTTP/1.1\r",
      strBytes "Accept-Encoding: gzip\r", [13], ([] : List Nat)].getLast? = some [] := rfl
  rw [h2, h3, h4, hg]
  dsimp only
  rw [List.append_nil]
  simp only [List.mapM_cons, List.mapM_nil, strFromBytes_zero_absorb]
  have h5 : strFromBytes (strBytes "GET /echo/abc HTTP/1.1") = some "GET /echo/abc HTTP/1.1" := by
    decide
  have h6 : strFromBytes (strBytes "Accept-Encoding: gzip") = some "Accept-Encoding: gzip" := by
    decide
  have h7 : strFromBytes ([] : List Nat) = some "" := by decide
  rw [h5, h6, h7]
  rfl

theorem rustSplitWhitespace_bigLine :
    rustSplitWhitespace bigLine = [nulMethod, "/echo/abc", "HTTP/1.1"] := by
  have hc : (fun c => c.isWhitespace) (Char.ofNat 0) = false := by decide
  show ((splitPred (fun c => c.isWhitespace)
      (List.replicate 1024 (Char.ofNat 0) ++ "GET /echo/abc HTTP/1.1".data)).filter
      (fun t => t ≠ [])).map String.mk = _
  rw [splitPred_replicate_absorb _ _ hc]
  have hsp : splitPred (fun c => c.isWhitespace) ("GET /echo/abc HTTP/1.1".data) =
      ["GET".data, "/echo/abc".data, "HTTP/1.1".data] := by decide
  rw [hsp]
  dsimp only [List.headD_cons, List.tail_cons]
  simp [nulMethod]

theorem from_bytes_zeros_gzip :
    MainRs.from_bytes (List.replicate 1024 0 ++ gzipReqBytes) = .ok c1Req := by
  rw [MainRs.from_bytes, ioLines_zeros_gzip]
  dsimp only [List.head?]
  rw [rustSplitWhitespace_bigLine, if_pos (by decide :
    ([nulMethod, "/echo/abc", "HTTP/1.1"] : List String).length = 3)]
  have hb : (bigLine == "") = false := by
    simp [bigLine, String.ext_iff]
  have hfi : List.findIdx? (fun x => x == "") [bigLine, "Accept-Encoding: gzip", ""] = some 2 := by
    rw [List.findIdx?_cons, hb]
    rw [if_neg (by decide : ¬(false = true))]
    exact (by decide :
      List.findIdx? (fun x => x == "") ["Accept-Encoding: gzip", ""] (0 + 1) = some 2)
  rw [hfi]
  rfl

theorem handle_connection_gzip :
    MainRs.handle_connection [gzipReqBytes] cfg0 fs0 = .wrote c1Resp.encode := by
  rw [MainRs.handle_connection]
  dsimp only [List.headD_cons]
  rw [from_bytes_zeros_gzip]
  rfl

theorem handle_connection_gzip_two :
    MainRs.handle_connection [gzipReqBytes, gzipReqBytes] cfg0 fs0 = .wrote c1Resp.encode := by
  rw [MainRs.handle_connection]
  dsimp only [List.headD_cons]
  rw [from_bytes_zeros_gzip]
  rfl

theorem ioLines_zeros :
    ioLines (List.replicate 1024 0) =
      some [String.mk (List.replicate 1024 (Char.ofNat 0))] := by
  have hs : splitByte 10 (List.replicate 1024 (0 : Nat)) = [List.replicate 1024 0] := by
    have h := splitByte_replicate_absorb 10 0 (by decide) 1024 []
    simpa using h
  have hm : (match ([List.replicate 1024 (0 : Nat)].getLast?) with
      | some [] => ([] : List (List Nat))
      | some p => [p]
      | none => []) = [List.replicate 1024 0] := by
    cases hrep : List.replicate 1024 (0 : Nat) with
    | nil => simp at hrep
    | cons a as =>
      rfl
  have hsf : strFromBytes (List.replicate 1024 (0 : Nat)) =
      some (String.mk (List.replicate 1024 (Char.ofNat 0))) := by
    have h := strFromBytes_zero_absorb 1024 []
    simpa using h
  rw [ioLines, hs]
  dsimp only [List.dropLast_single, List.map_nil]
  rw [hm, List.nil_append]
  simp only [List.mapM_cons, List.mapM_nil, hsf]
  rfl

theorem from_bytes_zeros_eof :
    MainRs.from_bytes (List.replicate 1024 0 ++ []) =
      .error "invalid request line: expected 3 parts, got 1" := by
  rw [List.append_nil, MainRs.from_bytes, ioLines_zeros]
  dsimp only [List.head?]
  have hsw : rustSplitWhitespace (String.mk (List.replicate 1024 (Char.ofNat 0))) =
      [String.mk (List.replicate 1024 (Char.ofNat 0))] := by
    show ((splitPred (fun c => c.isWhitespace)
        (List.replicate 1024 (Char.ofNat 0))).filter (fun t => t ≠ [])).map String.mk = _
    have h := splitPred_replicate_absorb (fun c => c.isWhitespace) (Char.ofNat 0)
      (by decide) 1024 []
    rw [List.append_nil] at h
    have h2 : splitPred (fun c => c.isWhitespace) ([] : List Char) = [[]] := rfl
    rw [h2] at h
    dsimp only [List.headD_cons, List.tail_cons] at h
    rw [List.append_nil] at h
    have hpos : (decide (List.replicate 1024 (Char.ofNat 0) ≠ [])) = true := by simp
    rw [h, List.filter_cons, hpos, if_pos rfl, List.filter_nil, List.map_cons, List.map_nil]
  rw [hsw, if_neg (by decide :
    ¬([String.mk (List.replicate 1024 (Char.ofNat 0))] : List String).length = 3)]
  rfl

/-! ## Claims -/

/-- Claim C1 counterexample: the claim asserts that a request whose
`Accept-Encoding` header contains `gzip` gets a gzip-compressed body,
`Content-Encoding: gzip`, and a recomputed `Content-Length`.  On the
concrete request `GET /echo/abc` with `Accept-Encoding: gzip` the server
decodes the header (conjuncts 1 and 2), but writes the plain echo response:
no `Content-Encoding` header is present and the body is the uncompressed
`abc` (conjuncts 3 to 5), refuting the claim. -/
theorem C1_counterexample :
    MainRs.from_bytes (List.replicate 1024 0 ++ gzipReqBytes) = .ok c1Req
    ∧ lookupHdr c1Req.headers "Accept-Encoding" = some "gzip"
    ∧ MainRs.handle_connection [gzipReqBytes] cfg0 fs0 = .wrote c1Resp.encode
    ∧ lookupHdr c1Resp.headers "Content-Encoding" = none
    ∧ c1Resp.body = strBytes "abc" :=
  ⟨from_bytes_zeros_gzip, rfl, handle_connection_gzip, rfl, rfl⟩

/-- Claim C1 (amended): the connection handler performs no compression step
at all: whatever the request's `Accept-Encoding` header says, the bytes
written are exactly the wire encoding of the router's response, unchanged,
and no response ever carries a `Content-Encoding` header. -/
theorem C1_claim : ∀ (reads : List (List Nat)) (cfg : ServerConfig) (fs : Fs)
    (req : HttpRequest) (resp : HttpResponse),
    MainRs.from_bytes (List.replicate 1024 0 ++ reads.headD []) = .ok req →
    MainRs.handle_request req cfg fs = some (.ok resp) →
    MainRs.handle_connection reads cfg fs = .wrote resp.encode
    ∧ lookupHdr resp.headers "Content-Encoding" = none := by
  intro reads cfg fs req resp h1 h2
  constructor
  · simp only [MainRs.handle_connection, h1, h2]
  · exact handle_request_no_content_encoding req cfg fs resp h2

/-- Claim C1 witness: the amended theorem applied to the concrete
`Accept-Encoding: gzip` request. -/
theorem C1_witness :
    MainRs.handle_connection [gzipReqBytes] cfg0 fs0 = .wrote c1Resp.encode
    ∧ lookupHdr c1Resp.headers "Content-Encoding" = none :=
  C1_claim [gzipReqBytes] cfg0 fs0 c1Req c1Resp from_bytes_zeros_gzip rfl

/-- Claim C2 counterexample: the claim asserts that `POST /files/<name>`
with a configured directory writes the body and returns 201.  On the
concrete `POST /files/report.txt` with directory `/data` and an empty
filesystem the handler returns 404, not 201, and performs no write (its
type has no filesystem output at all). -/
theorem C2_counterexample :
    MainRs.handle_request c2Req cfgD fs0 = some (.ok HttpResponse.not_found)
    ∧ HttpResponse.not_found.status_code = 404
    ∧ (404 : Nat) ≠ 201 :=
  ⟨rfl, rfl, by decide⟩

/-- Claim C2 (amended): the `files` route ignores the request method and
body entirely and never writes: with no configured directory it answers
404; with one, it stats `directory/segment` and serves the file with 200,
`Content-Type: application/octet-stream` and `Content-Length` from the
stat size if it is a regular file, else 404; no response of the handler
ever has status 201. -/
theorem C2_claim : ∀ (req : HttpRequest) (cfg : ServerConfig) (fs : Fs) (ss : List String),
    MainRs.segmentsOf req.path = "files" :: ss →
    (cfg.static_directory = none →
      MainRs.handle_request req cfg fs = some (.ok HttpResponse.not_found))
    ∧ (∀ root, cfg.static_directory = some root →
        (fs.stat (root ++ "/" ++ ss.headD "") = none →
          MainRs.handle_request req cfg fs = some (.ok HttpResponse.not_found))
        ∧ (∀ m, fs.stat (root ++ "/" ++ ss.headD "") = some m → m.is_file = false →
            MainRs.handle_request req cfg fs = some (.ok HttpResponse.not_found))
        ∧ (∀ m c, fs.stat (root ++ "/" ++ ss.headD "") = some m → m.is_file = true →
            fs.read (root ++ "/" ++ ss.headD "") = some c →
            MainRs.handle_request req cfg fs = some (.ok
              (((HttpResponse.ok.set_header "Content-Type"
                "application/octet-stream").set_header "Content-Length"
                (toString m.len)).set_body c))))
    ∧ (∀ m b, MainRs.handle_request ⟨m, req.path, req.headers, b⟩ cfg fs =
        MainRs.handle_request req cfg fs)
    ∧ (∀ resp, MainRs.handle_request req cfg fs = some (.ok resp) →
        resp.status_code ≠ 201) := by
  intro req cfg fs ss hseg
  have hmsg : ("files" :: ss).getD 1 "" = ss.headD "" := by cases ss <;> rfl
  refine ⟨?_, ?_, ?_, ?_⟩
  · intro hdir
    simp only [MainRs.handle_request, hseg, List.head?, hdir]
    simp
  · intro root hdir
    refine ⟨?_, ?_, ?_⟩
    · intro hstat
      simp only [MainRs.handle_request, hseg, List.head?, hdir, hmsg, hstat]
      simp
    · intro m hstat hm
      simp only [MainRs.handle_request, hseg, List.head?, hdir, hmsg, hstat, hm]
      simp
    · intro m c hstat hm hread
      simp only [MainRs.handle_request, hseg, List.head?, hdir, hmsg, hstat, hm, hread]
      simp
  · intro m b
    rfl
  · intro resp h
    exact handle_request_status_ne_201 req cfg fs resp h

/-- Claim C2 witness: the amended theorem applied to
`POST /files/report.txt` against the empty filesystem (404) and against a
filesystem holding the file (200 serving it), and the method-irrelevance
clause showing `GET` and `POST` agree. -/
theorem C2_witness :
    MainRs.handle_request c2Req cfgD fs0 = some (.ok HttpResponse.not_found)
    ∧ MainRs.handle_request c2Req cfgD fsGood = some (.ok
        (((HttpResponse.ok.set_header "Content-Type"
          "application/octet-stream").set_header "Content-Length"
          (toString (5 : Nat))).set_body (strBytes "hello")))
    ∧ MainRs.handle_request ⟨"GET", c2Req.path, c2Req.headers, []⟩ cfgD fsGood =
        MainRs.handle_request c2Req cfgD fsGood := by
  have h := C2_claim c2Req cfgD fs0 ["report.txt"] rfl
  have h2 := C2_claim c2Req cfgD fsGood ["report.txt"] rfl
  exact ⟨(h.2.1 "/data" rfl).1 rfl,
    (h2.2.1 "/data" rfl).2.2 ⟨true, 5⟩ (strBytes "hello") rfl rfl rfl,
    h2.2.2.1 "GET" []⟩

/-- Claim C3 counterexample: the claim asserts the connection loop sends
one response per decoded request and terminates exactly on
`Connection: close` or failure.  Here two well-formed requests without any
`Connection` header are available on the socket (conjuncts 1 and 2), yet
the connection writes exactly one response and returns (conjunct 3) — in
particular it does not write the two responses the claim predicts
(conjunct 4). -/
theorem C3_counterexample :
    MainRs.from_bytes (List.replicate 1024 0 ++ gzipReqBytes) = .ok c1Req
    ∧ lookupHdr c1Req.headers "Connection" = none
    ∧ MainRs.handle_connection [gzipReqBytes, gzipReqBytes] cfg0 fs0 = .wrote c1Resp.encode
    ∧ MainRs.ConnOutcome.wrote c1Resp.encode ≠
        MainRs.ConnOutcome.wrote (c1Resp.encode ++ c1Resp.encode) :=
  ⟨from_bytes_zeros_gzip, rfl, handle_connection_gzip_two, by decide⟩

/-- Claim C3 (amended): every accepted connection runs exactly one
read-decode-handle-encode-write cycle: chunks after the first read never
affect the outcome, a decode failure of the (zero-prefixed) first read
terminates the connection with that error and no response, and a decoded
request produces exactly one written response after which the function
returns; the `Connection: close` header is never consulted. -/
theorem C3_claim :
    (∀ (r : List Nat) (rest rest2 : List (List Nat)) (cfg : ServerConfig) (fs : Fs),
      MainRs.handle_connection (r :: rest) cfg fs = MainRs.handle_connection (r :: rest2) cfg fs)
    ∧ (∀ (reads : List (List Nat)) (cfg : ServerConfig) (fs : Fs) (e : String),
      MainRs.from_bytes (List.replicate 1024 0 ++ reads.headD []) = .error e →
      MainRs.handle_connection reads cfg fs = .failed e)
    ∧ (∀ (reads : List (List Nat)) (cfg : ServerConfig) (fs : Fs)
        (req : HttpRequest) (resp : HttpResponse),
      MainRs.from_bytes (List.replicate 1024 0 ++ reads.headD []) = .ok req →
      MainRs.handle_request req cfg fs = some (.ok resp) →
      MainRs.handle_connection reads cfg fs = .wrote resp.encode) := by
  refine ⟨?_, ?_, ?_⟩
  · intro r rest rest2 cfg fs
    simp only [MainRs.handle_connection, List.headD_cons]
  · intro reads cfg fs e h
    rw [MainRs.handle_connection]
    dsimp only
    rw [h]
  · intro reads cfg fs req resp h1 h2
    rw [MainRs.handle_connection]
    dsimp only
    rw [h1]
    dsimp only
    rw [h2]

/-- Claim C3 witness: the amended theorem applied concretely — an empty
socket fails decoding with the request-line error and no response; one
valid request yields exactly one written response; and the outcome with
two pending chunks equals the outcome with entirely different later
chunks. -/
theorem C3_witness :
    MainRs.handle_connection [] cfg0 fs0 =
      .failed "invalid request line: expected 3 parts, got 1"
    ∧ MainRs.handle_connection [gzipReqBytes] cfg0 fs0 = .wrote c1Resp.encode
    ∧ MainRs.handle_connection [gzipReqBytes, gzipReqBytes] cfg0 fs0 =
        MainRs.handle_connection [gzipReqBytes, [], [42]] cfg0 fs0 :=
  ⟨C3_claim.2.1 [] cfg0 fs0 _ from_bytes_zeros_eof,
   C3_claim.2.2 [gzipReqBytes] cfg0 fs0 c1Req c1Resp from_bytes_zeros_gzip rfl,
   C3_claim.1 gzipReqBytes [gzipReqBytes] [[], [42]] cfg0 fs0⟩

/-- Claim C4 counterexample: the claim asserts that a read failure after a
successful stat degrades to a 500 response.  On a filesystem where the
stat of `/data/report.txt` reports a 3-byte regular file but the read
fails, the handler panics (`unwrap`), modelled as `none`: no response is
produced at all, so the caller's `Err`-to-500 conversion is never
reached. -/
theorem C4_counterexample :
    MainRs.handle_request filesReq cfgD fsStatOnly = none
    ∧ fsStatOnly.stat ("/data" ++ "/" ++ "report.txt") = some ⟨true, 3⟩
    ∧ fsStatOnly.read ("/data" ++ "/" ++ "report.txt") = none :=
  ⟨rfl, rfl, rfl⟩

/-- Claim C4 (amended): whenever every file read that follows a successful
regular-file stat succeeds, the handler is total: it returns `Ok` with a
well-formed response whose status is 200, 404 or 500; but when a stat
reports a regular file and the read fails, `handle_request` panics and the
connection produces no response (the claim's 500 conversion never
happens). -/
theorem C4_claim : ∀ (req : HttpRequest) (cfg : ServerConfig) (fs : Fs),
    (∀ p m, fs.stat p = some m → m.is_file = true → (fs.read p).isSome) →
    ∃ resp, MainRs.handle_request req cfg fs = some (.ok resp) ∧
      (resp.status_code = 200 ∨ resp.status_code = 404 ∨ resp.status_code = 500) := by
  intro req cfg fs hfs
  simp only [MainRs.handle_request]
  repeat' split
  all_goals try exact ⟨_, rfl, by simp [HttpResponse.ok, HttpResponse.not_found,
    HttpResponse.internal_server_error, HttpResponse.new, HttpResponse.set_header,
    HttpResponse.set_body]⟩
  rename_i hstat hfile hscrut hread
  have hcontra := hfs _ _ hstat hfile
  rw [hread] at hcontra
  simp at hcontra

/-- Claim C4 witness: the amended theorem applied to `GET
/files/report.txt` against a consistent filesystem where all reads after
successful stats succeed. -/
theorem C4_witness :
    ∃ resp, MainRs.handle_request filesReq cfgD fsGood = some (.ok resp) ∧
      (resp.status_code = 200 ∨ resp.status_code = 404 ∨ resp.status_code = 500) :=
  C4_claim filesReq cfgD fsGood (by
    intro p m h1 h2
    by_cases hp : p = "/data/report.txt"
    · simp [fsGood, hp]
    · simp [fsGood, hp] at h1)

/-- Claim C5: for every response the handler produces (on a filesystem
where stat sizes agree with read contents), a present `Content-Length`
header equals the byte length of the body, and the encoder appends exactly
that body after the head section. -/
theorem C5_claim : ∀ (req : HttpRequest) (cfg : ServerConfig) (fs : Fs)
    (resp : HttpResponse),
    (∀ p m c, fs.stat p = some m → fs.read p = some c → c.length = m.len) →
    MainRs.handle_request req cfg fs = some (.ok resp) →
    (∀ v, lookupHdr resp.headers "Content-Length" = some v →
      v = toString resp.body.length)
    ∧ resp.encode.drop (resp.encode.length - resp.body.length) = resp.body := by
  intro req cfg fs resp hcons hresp
  refine ⟨?_, encode_drop_body resp⟩
  intro v hv
  rcases handle_request_inv req cfg fs resp hresp with
    h1 | h1 | h1 | ⟨msg, h1⟩ | ⟨p, m, c, hs, hr, h1⟩ <;> subst h1
  · simp [HttpResponse.ok, HttpResponse.new, lookupHdr] at hv
  · simp [HttpResponse.not_found, HttpResponse.new, lookupHdr] at hv
  · simp [HttpResponse.internal_server_error, HttpResponse.new, lookupHdr] at hv
  · simp [HttpResponse.ok, HttpResponse.new, HttpResponse.set_header,
      HttpResponse.set_body, insertHdr, lookupHdr] at hv
    subst hv
    rfl
  · simp [HttpResponse.ok, HttpResponse.new, HttpResponse.set_header,
      HttpResponse.set_body, insertHdr, lookupHdr] at hv
    subst hv
    show toString m.len = toString c.length
    rw [hcons p m c hs hr]

/-- Claim C5 witness: the theorem applied to `GET /files/report.txt` on
the consistent filesystem `fsGood`, whose declared `Content-Length` is
`5`, the length of body `hello`. -/
theorem C5_witness :
    lookupHdr c5Resp.headers "Content-Length" = some "5"
    ∧ ("5" : String) = toString c5Resp.body.length
    ∧ c5Resp.encode.drop (c5Resp.encode.length - c5Resp.body.length) = c5Resp.body := by
  have hcons : ∀ p m c, fsGood.stat p = some m → fsGood.read p = some c →
      c.length = m.len := by
    intro p m c h1 h2
    by_cases hp : p = "/data/report.txt"
    · rw [hp] at h1 h2
      simp only [fsGood] at h1 h2
      rw [if_true] at h1 h2
      cases h1
      cases h2
      decide
    · simp [fsGood, hp] at h1
  have h := C5_claim filesReq cfgD fsGood c5Resp hcons rfl
  exact ⟨rfl, h.1 "5" rfl, h.2⟩

/-- Claim C6: the byte-level decoder frames on the first `\r\n\r\n`: when
no separator exists it fails with the framing error, and every
successfully decoded request has as body exactly the first
`min(parsed Content-Length or 0, bytes available after the separator)`
bytes following the separator, never reading past the buffer end. -/
theorem C6_claim : ∀ bytes : List Nat,
    (findSep bytes = none →
      RequestRs.from_bytes bytes = .error "Unable to find header/body seperator")
    ∧ (∀ req, RequestRs.from_bytes bytes = .ok req →
        ∃ pos, findSep bytes = some pos ∧
          req.body = (bytes.drop (pos + 4)).take (RequestRs.contentLengthOf req.headers) ∧
          req.body.length =
            min (RequestRs.contentLengthOf req.headers) (bytes.length - (pos + 4))) := by
  intro bytes
  constructor
  · intro h
    rw [RequestRs.from_bytes, h]
  · intro req hok
    simp only [RequestRs.from_bytes] at hok
    repeat' split at hok
    all_goals try exact Except.noConfusion hok
    simp only [Except.ok.injEq] at hok
    subst hok
    refine ⟨_, by assumption, ?_, ?_⟩
    · exact take_min _ _
    · simp only [List.length_take, List.length_drop]
      omega

/-- Claim C6 witness: the theorem applied to a buffer without a separator
(framing error) and to a request declaring `Content-Length: 5` followed by
ten candidate body bytes (body is the 5-byte prefix `hello`). -/
theorem C6_witness :
    RequestRs.from_bytes c6NoSep = .error "Unable to find header/body seperator"
    ∧ (∃ pos, findSep c6Bytes = some pos ∧
        c6Req.body = (c6Bytes.drop (pos + 4)).take (RequestRs.contentLengthOf c6Req.headers) ∧
        c6Req.body.length =
          min (RequestRs.contentLengthOf c6Req.headers) (c6Bytes.length - (pos + 4))) :=
  ⟨(C6_claim c6NoSep).1 rfl, (C6_claim c6Bytes).2 c6Req rfl⟩

/-- Claim C7 counterexample: the claim asserts header-line splitting keeps
everything after the first `": "` as the value, failing only when no
separator is present.  The header line `X: a: b` contains a separator, yet
decoding the whole request fails with the 3-parts error instead of
yielding `("X", "a: b")`. -/
theorem C7_counterexample :
    RequestRs.from_bytes c7Bytes = .error "invalid header: expected 2 parts, got 3"
    ∧ containsColonSpace ("X: a: b".data) = true
    ∧ parseHeaderLine "X: a: b" ≠ .ok ("X", "a: b") :=
  ⟨rfl, by decide, by decide⟩

/-- Claim C7 (amended): a header line is split at every `": "` occurrence
and must yield exactly two parts: a line with exactly one separator
decodes to that key/value pair (the value stored verbatim), and a line
whose split has any other number of parts fails with the malformed-header
error naming that count. -/
theorem C7_claim :
    (∀ (line k v : String), (splitColonSpace line.data).map String.mk = [k, v] →
      parseHeaderLine line = .ok (k, v))
    ∧ (∀ k v : String, containsColonSpace k.data = false →
        containsColonSpace v.data = false →
        parseHeaderLine (k ++ ": " ++ v) = .ok (k, v))
    ∧ (∀ line : String, ((splitColonSpace line.data).map String.mk).length ≠ 2 →
        parseHeaderLine line = .error ("invalid header: expected 2 parts, got "
          ++ toString ((splitColonSpace line.data).map String.mk).length)) := by
  refine ⟨?_, ?_, ?_⟩
  · intro line k v h
    rw [parseHeaderLine, h]
  · intro k v hk hv
    have hdata : (k ++ ": " ++ v).data = k.data ++ Char.ofNat 58 :: Char.ofNat 32 :: v.data := by
      rw [String.data_append, String.data_append, List.append_assoc]
      rfl
    rw [parseHeaderLine, hdata, splitColonSpace_append _ _ hk, splitColonSpace_no_sep _ hv]
    dsimp only [List.map_cons, List.map_nil]
  · intro line h
    rw [parseHeaderLine]
    generalize hgen : (splitColonSpace line.data).map String.mk = parts at h ⊢
    match parts, h with
    | [], h => rfl
    | [a], h => rfl
    | [a, b], h => exact absurd rfl h
    | a :: b :: cc :: rest, h => rfl

/-- Claim C7 witness: the amended theorem applied to the well-formed line
`Host: example` (one separator) and the malformed line `X` (none). -/
theorem C7_witness :
    parseHeaderLine "Host: example" = .ok ("Host", "example")
    ∧ parseHeaderLine "X" = .error "invalid header: expected 2 parts, got 1" :=
  ⟨C7_claim.2.1 "Host" "example" (by decide) (by decide),
   C7_claim.2.2 "X" (by decide)⟩

/-- Claim C8: on the `user-agent` route the handler answers 200 with the
`User-Agent` header value as body and its byte length as `Content-Length`
when the header is present, and the bare 500 response when it is
absent. -/
theorem C8_claim : ∀ (req : HttpRequest) (cfg : ServerConfig) (fs : Fs),
    (MainRs.segmentsOf req.path).head? = some "user-agent" →
    (∀ ua, lookupHdr req.headers "User-Agent" = some ua →
      ∃ resp, MainRs.handle_request req cfg fs = some (.ok resp) ∧
        resp.status_code = 200 ∧ resp.body = strBytes ua ∧
        lookupHdr resp.headers "Content-Length" = some (toString (strBytes ua).length))
    ∧ (lookupHdr req.headers "User-Agent" = none →
      MainRs.handle_request req cfg fs = some (.ok HttpResponse.internal_server_error)
      ∧ HttpResponse.internal_server_error.status_code = 500) := by
  intro req cfg fs hseg
  constructor
  · intro ua hua
    refine ⟨((HttpResponse.ok.set_header "Content-Type" "text/plain").set_header
        "Content-Length" (toString (strBytes ua).length)).set_body (strBytes ua),
        ?_, rfl, rfl, rfl⟩
    simp only [MainRs.handle_request, hseg, hua]
    simp
  · intro hua
    refine ⟨?_, rfl⟩
    simp only [MainRs.handle_request, hseg, hua]
    simp

/-- Claim C8 witness: the theorem applied to `GET /user-agent` with header
`User-Agent: test-agent` (200, body `test-agent`, `Content-Length: 10`)
and without it (500). -/
theorem C8_witness :
    MainRs.handle_request uaReq cfg0 fs0 = some (.ok uaResp)
    ∧ uaResp.status_code = 200 ∧ uaResp.body = strBytes "test-agent"
    ∧ lookupHdr uaResp.headers "Content-Length" = some (toString (strBytes "test-agent").length)
    ∧ MainRs.handle_request uaReqAbsent cfg0 fs0 =
        some (.ok HttpResponse.internal_server_error) := by
  obtain ⟨resp, h1, h2, h3, h4⟩ := (C8_claim uaReq cfg0 fs0 rfl).1 "test-agent" rfl
  have hval : MainRs.handle_request uaReq cfg0 fs0 = some (.ok uaResp) := rfl
  rw [hval] at h1
  simp only [Option.some.injEq, Except.ok.injEq] at h1
  subst h1
  exact ⟨hval, h2, h3, h4, ((C8_claim uaReqAbsent cfg0 fs0 rfl).2 rfl).1⟩

/-- Claim C9: routing splits the path on `/` discarding empty segments: no
segments means the bare 200 with empty body, an unrecognized first segment
means 404, and an `echo` first segment means 200 with the second segment
(empty if absent) as `text/plain` body whose byte length is the declared
`Content-Length`. -/
theorem C9_claim : ∀ (req : HttpRequest) (cfg : ServerConfig) (fs : Fs),
    (MainRs.segmentsOf req.path = [] →
      MainRs.handle_request req cfg fs = some (.ok HttpResponse.ok)
      ∧ HttpResponse.ok.status_code = 200 ∧ HttpResponse.ok.body = [])
    ∧ (∀ s ss, MainRs.segmentsOf req.path = s :: ss →
        s ≠ "files" → s ≠ "echo" → s ≠ "user-agent" →
        MainRs.handle_request req cfg fs = some (.ok HttpResponse.not_found)
        ∧ HttpResponse.not_found.status_code = 404)
    ∧ (∀ ss, MainRs.segmentsOf req.path = "echo" :: ss →
        ∃ resp, MainRs.handle_request req cfg fs = some (.ok resp) ∧
          resp.status_code = 200 ∧ resp.body = strBytes (ss.headD "") ∧
          lookupHdr resp.headers "Content-Type" = some "text/plain" ∧
          lookupHdr resp.headers "Content-Length" =
            some (toString (strBytes (ss.headD "")).length)) := by
  intro req cfg fs
  refine ⟨?_, ?_, ?_⟩
  · intro hseg
    refine ⟨?_, rfl, rfl⟩
    simp only [MainRs.handle_request, hseg, List.head?]
  · intro s ss hseg h1 h2 h3
    refine ⟨?_, rfl⟩
    simp only [MainRs.handle_request, hseg, List.head?, if_neg h1, if_neg h2, if_neg h3]
  · intro ss hseg
    have hmsg : ("echo" :: ss).getD 1 "" = ss.headD "" := by cases ss <;> rfl
    refine ⟨((HttpResponse.ok.set_header "Content-Type" "text/plain").set_header
        "Content-Length" (toString (strBytes (ss.headD "")).length)).set_body
        (strBytes (ss.headD "")), ?_, rfl, rfl, rfl, rfl⟩
    simp only [MainRs.handle_request, hseg, List.head?, hmsg]
    simp

/-- Claim C9 witness: the theorem applied to the spec's five examples;
`/echo/something` declares `Content-Length` `"9"`, the byte length of
`something`. -/
theorem C9_witness :
    MainRs.handle_request ⟨"GET", "/", [], []⟩ cfg0 fs0 = some (.ok HttpResponse.ok)
    ∧ MainRs.handle_request ⟨"GET", "", [], []⟩ cfg0 fs0 = some (.ok HttpResponse.ok)
    ∧ MainRs.handle_request ⟨"GET", "/something", [], []⟩ cfg0 fs0 =
        some (.ok HttpResponse.not_found)
    ∧ MainRs.handle_request ⟨"GET", "/something/something", [], []⟩ cfg0 fs0 =
        some (.ok HttpResponse.not_found)
    ∧ toString (strBytes "something").length = "9" :=
  ⟨((C9_claim ⟨"GET", "/", [], []⟩ cfg0 fs0).1 rfl).1,
   ((C9_claim ⟨"GET", "", [], []⟩ cfg0 fs0).1 rfl).1,
   ((C9_claim ⟨"GET", "/something", [], []⟩ cfg0 fs0).2.1 "something" [] rfl
     (by decide) (by decide) (by decide)).1,
   ((C9_claim ⟨"GET", "/something/something", [], []⟩ cfg0 fs0).2.1 "something"
     ["something"] rfl (by decide) (by decide) (by decide)).1,
   by decide⟩

/-- Claim C10: the handler's result depends only on the request's path and
headers (and the configuration and filesystem): requests agreeing on those
but differing in method and/or body get identical responses. -/
theorem C10_claim : ∀ (r1 r2 : HttpRequest) (cfg : ServerConfig) (fs : Fs),
    r1.path = r2.path → r1.headers = r2.headers →
    MainRs.handle_request r1 cfg fs = MainRs.handle_request r2 cfg fs := by
  intro r1 r2 cfg fs hp hh
  cases r1
  cases r2
  simp only at hp hh
  subst hp
  subst hh
  rfl

/-- Claim C10 witness: the theorem applied to a `GET` with empty body and
a `POST` with non-empty body on the same path and headers. -/
theorem C10_witness :
    MainRs.handle_request ⟨"GET", "/files/report.txt", [], []⟩ cfgD fsGood =
      MainRs.handle_request ⟨"POST", "/files/report.txt", [], strBytes "hello"⟩ cfgD fsGood :=
  C10_claim _ _ cfgD fsGood rfl rfl
